import Mathlib

set_option maxHeartbeats 1000000
set_option maxRecDepth 4000

/-!
Verification development for libavformat/id3v2enc.c (ID3v2 header writer).

The source file is embedded shallowly: the byte sink (AVIOContext) and its
write primitives are external collaborators of the core (the spec treats them
as out of scope), so they are modelled from the spec's description of the
external interfaces; every function of id3v2enc.c itself is translated
directly from the C source.  Machine integers become Nat with explicit
truncation (% 256 at each byte write); the fallible dynamic-buffer
allocation becomes an explicit oracle of outcomes threaded through the
computation.
-/

namespace ID3v2

/-- Modelled from the spec: the byte sink is a seekable, appendable output
stream (avio).  `data` holds the bytes written so far, `pos` is the cursor. -/
structure AVIOContext where
  data : List Nat
  pos : Nat
deriving Repr, DecidableEq

/-- Writing one byte at offset `i`: overwrite in place when inside the
current contents, append when at the end. -/
def writeAt (l : List Nat) (i : Nat) (b : Nat) : List Nat :=
  if i < l.length then l.set i b else l ++ [b]

/-- Modelled from the spec: avio_w8 writes one byte (truncated to 8 bits). -/
def avio_w8 (pb : AVIOContext) (b : Nat) : AVIOContext :=
  ⟨writeAt pb.data pb.pos (b % 256), pb.pos + 1⟩

/-- Modelled from the spec: avio_wb16 writes a 16-bit big-endian value. -/
def avio_wb16 (pb : AVIOContext) (v : Nat) : AVIOContext :=
  avio_w8 (avio_w8 pb (v >>> 8)) v

/-- Modelled from the spec: avio_wl16 writes a 16-bit little-endian value. -/
def avio_wl16 (pb : AVIOContext) (v : Nat) : AVIOContext :=
  avio_w8 (avio_w8 pb v) (v >>> 8)

/-- Modelled from the spec: avio_wb32 writes a 32-bit big-endian value. -/
def avio_wb32 (pb : AVIOContext) (v : Nat) : AVIOContext :=
  avio_w8 (avio_w8 (avio_w8 (avio_w8 pb (v >>> 24)) (v >>> 16)) (v >>> 8)) v

/-- Modelled from the spec: avio_write writes a block of bytes in order. -/
def avio_write (pb : AVIOContext) (l : List Nat) : AVIOContext :=
  l.foldl avio_w8 pb

/-- Modelled from the spec: avio_tell reports the current cursor position. -/
def avio_tell (pb : AVIOContext) : Nat := pb.pos

/-- Modelled from the spec: avio_seek with SEEK_SET moves the cursor. -/
def avio_seek (pb : AVIOContext) (off : Nat) : AVIOContext := ⟨pb.data, off⟩

/-- Modelled from the spec: the UTF-8 decoding performed by the external
string writer avio_put_str16le (a truncated or stray sequence ends the
string, mirroring the `break` of GET_UTF8 on invalid input). -/
def utf8_decode : List Nat → List Nat
  | [] => []
  | b :: s =>
    if b < 0x80 then b :: utf8_decode s
    else if b < 0xC0 then []
    else if b < 0xE0 then
      match s with
      | c :: s2 => ((b % 32) <<< 6 ||| (c % 64)) :: utf8_decode s2
      | [] => []
    else if b < 0xF0 then
      match s with
      | c :: d :: s3 => ((b % 16) <<< 12 ||| (c % 64) <<< 6 ||| (d % 64)) :: utf8_decode s3
      | _ => []
    else
      match s with
      | c :: d :: e :: s4 =>
        ((b % 8) <<< 18 ||| (c % 64) <<< 12 ||| (d % 64) <<< 6 ||| (e % 64)) :: utf8_decode s4
      | _ => []

/-- Modelled from the spec: one codepoint serialized as UTF-16 little-endian
bytes, a surrogate pair above 0xFFFF (PUT_UTF16 followed by 16-bit LE writes). -/
def utf16le_bytes (cp : Nat) : List Nat :=
  if cp < 0x10000 then [cp % 256, (cp >>> 8) % 256]
  else
    [(0xD800 + ((cp - 0x10000) >>> 10)) % 256,
     ((0xD800 + ((cp - 0x10000) >>> 10)) >>> 8) % 256,
     (0xDC00 + ((cp - 0x10000) % 0x400)) % 256,
     ((0xDC00 + ((cp - 0x10000) % 0x400)) >>> 8) % 256]

/-- Modelled from the spec: a UTF-8 byte string re-encoded as UTF-16LE bytes. -/
def utf8_to_utf16le (s : List Nat) : List Nat :=
  ((utf8_decode s).map utf16le_bytes).flatten

/-- Modelled from the spec: avio_put_str writes the string's bytes followed by
a NUL terminator. -/
def avio_put_str (pb : AVIOContext) (s : List Nat) : AVIOContext :=
  avio_write pb (s ++ [0])

/-- Modelled from the spec: avio_put_str16le writes the UTF-16LE re-encoding
of the string followed by a 16-bit zero terminator. -/
def avio_put_str16le (pb : AVIOContext) (s : List Nat) : AVIOContext :=
  avio_write pb (utf8_to_utf16le s ++ [0, 0])

/-- enum ID3v2Encoding from the external header id3v2.h (codes per spec
section 6: 0 = ISO-8859-1, 1 = UTF-16 with BOM, 3 = UTF-8). -/
inductive ID3v2Encoding where
  | ISO8859
  | UTF16BOM
  | UTF16BE
  | UTF8
deriving Repr, DecidableEq

/-- The numeric code of an encoding, the byte written as payload indicator. -/
def ID3v2Encoding.code : ID3v2Encoding → Nat
  | .ISO8859 => 0
  | .UTF16BOM => 1
  | .UTF16BE => 2
  | .UTF8 => 3

/-- ID3v2EncContext from the external header id3v2.h: tag version, offset of
the reserved size field, running byte count of the written frames. -/
structure ID3v2EncContext where
  version : Nat
  size_pos : Nat
  len : Nat
deriving Repr, DecidableEq

/-- ID3v2_HEADER_SIZE from id3v2.h (spec: frame/tag header is 10 bytes). -/
def ID3v2_HEADER_SIZE : Nat := 10

/-- AVERROR(ENOMEM): the out-of-memory error code (negative errno). -/
def AVERROR_ENOMEM : Int := -12

/-- Allocation oracle for avio_open_dyn_buf: the head of the list is the next
allocation outcome; an exhausted oracle means allocations succeed. -/
def allocNext : List Bool → Bool × List Bool
  | [] => (true, [])
  | b :: r => (b, r)

/-- MKBETAG from libavutil: pack four bytes big-endian-first into one word. -/
def MKBETAG (a b c d : Nat) : Nat := d ||| c <<< 8 ||| b <<< 16 ||| a <<< 24

/-- AV_RB32: read 4 bytes big-endian (out-of-range reads give 0). -/
def AV_RB32 (l : List Nat) : Nat :=
  l.getD 0 0 <<< 24 ||| l.getD 1 0 <<< 16 ||| l.getD 2 0 <<< 8 ||| l.getD 3 0

/-- id3v2_put_size: write a size as 4 synchsafe bytes of 7 bits each. -/
def id3v2_put_size (pb : AVIOContext) (size : Nat) : AVIOContext :=
  avio_w8 (avio_w8 (avio_w8 (avio_w8 pb
    (size >>> 21 &&& 0x7f)) (size >>> 14 &&& 0x7f)) (size >>> 7 &&& 0x7f)) (size &&& 0x7f)

/-- string_is_ascii: scan while the byte is nonzero and below 128; the result
is true iff the scan stopped at the NUL terminator.  The list holds the bytes
of the C string before its terminator. -/
def string_is_ascii : List Nat → Bool
  | [] => true
  | c :: s => if c ≠ 0 ∧ c < 128 then string_is_ascii s else decide (c = 0)

/-- The encoding downgrade at the top of id3v2_put_ttag: UTF-16-with-BOM
falls back to ISO-8859-1 when str1 (and str2 when present) are ASCII-only. -/
def id3v2_select_enc (enc : ID3v2Encoding) (str1 : List Nat)
    (str2 : Option (List Nat)) : ID3v2Encoding :=
  if enc == .UTF16BOM && string_is_ascii str1 &&
      (match str2 with | none => true | some s => string_is_ascii s) then
    .ISO8859
  else enc

/-- The scratch dynamic-buffer construction inside id3v2_put_ttag, for the
already-selected encoding: the indicator byte, the little-endian BOM when the
encoding is UTF-16-with-BOM, then the one or two strings through the chosen
string writer (the C function pointer `put`). -/
def id3v2_ttag_dyn (enc : ID3v2Encoding) (str1 : List Nat) (str2 : Option (List Nat)) :
    AVIOContext :=
  let dyn_buf : AVIOContext := ⟨[], 0⟩
  let dyn_buf := avio_w8 dyn_buf enc.code
  let dyn_buf := if enc == .UTF16BOM then avio_wl16 dyn_buf 0xFEFF else dyn_buf
  let put := if enc == .UTF16BOM then avio_put_str16le else avio_put_str
  let dyn_buf := put dyn_buf str1
  match str2 with | none => dyn_buf | some s => put dyn_buf s

/-- id3v2_put_ttag: write a text frame with one (normal frames) or two (TXXX
frames) strings.  The scratch dynamic buffer is built first; only after it
closes is the real stream touched. Returns the C return value (byte count or
negative error), the real stream, and the remaining allocation oracle. -/
def id3v2_put_ttag (alloc : List Bool) (id3 : ID3v2EncContext) (avioc : AVIOContext)
    (str1 : List Nat) (str2 : Option (List Nat)) (tag : Nat) (enc0 : ID3v2Encoding) :
    Int × AVIOContext × List Bool :=
  let a := allocNext alloc
  if a.1 = false then (AVERROR_ENOMEM, avioc, a.2)
  else
    let enc := id3v2_select_enc enc0 str1 str2
    let dyn_buf := id3v2_ttag_dyn enc str1 str2
    let len := dyn_buf.data.length
    let avioc := avio_wb32 avioc tag
    let avioc := if id3.version = 3 then avio_wb32 avioc len else id3v2_put_size avioc len
    let avioc := avio_wb16 avioc 0
    let avioc := avio_write avioc dyn_buf.data
    ((len : Int) + (ID3v2_HEADER_SIZE : Int), avioc, a.2)

/-- The tag tables ff_id3v2_tags, ff_id3v2_3_tags and ff_id3v2_4_tags are
external data from id3v2.c; the embedding is generic over their contents. -/
structure Id3Tables where
  common : List (List Nat)
  v3 : List (List Nat)
  v4 : List (List Nat)

/-- The `for (i = 0; *table[i]; i++)` scan of id3v2_check_write_tag: stop at
the sentinel entry whose first byte is NUL, succeed at the first entry whose
big-endian 32-bit value equals `tag`.  (The action taken on a match depends
only on `tag`, so the scan reduces to this membership test.) -/
def table_has_tag (table : List (List Nat)) (tag : Nat) : Bool :=
  match table with
  | [] => false
  | e :: rest =>
    if e.getD 0 0 = 0 then false
    else if AV_RB32 e = tag then true
    else table_has_tag rest tag

/-- id3v2_check_write_tag: keys not of the form T??? (exactly 4 chars, first
is `T`, code 84) return -1; otherwise a table match writes a text frame with
the key's own big-endian value as tag and the value as sole string. -/
def id3v2_check_write_tag (alloc : List Bool) (id3 : ID3v2EncContext) (pb : AVIOContext)
    (key value : List Nat) (table : List (List Nat)) (enc : ID3v2Encoding) :
    Int × AVIOContext × List Bool :=
  if key.getD 0 0 ≠ 84 ∨ key.length ≠ 4 then (-1, pb, alloc)
  else if table_has_tag table (AV_RB32 key) then
    id3v2_put_ttag alloc id3 pb value none (AV_RB32 key) enc
  else (-1, pb, alloc)

/-- MKBETAG('T','X','X','X'), the fallback frame identifier. -/
def TXXX_tag : Nat := MKBETAG 84 88 88 88

/-- The while loop of ff_id3v2_write_metadata over the dictionary entries:
common table first, then the version-specific table, then the TXXX fallback;
only a negative TXXX write aborts the loop. -/
def id3v2_write_metadata_loop (tables : Id3Tables) (enc : ID3v2Encoding)
    (entries : List (List Nat × List Nat)) (alloc : List Bool)
    (id3 : ID3v2EncContext) (pb : AVIOContext) :
    Int × ID3v2EncContext × AVIOContext × List Bool :=
  match entries with
  | [] => (0, id3, pb, alloc)
  | (key, value) :: rest =>
    let c1 := id3v2_check_write_tag alloc id3 pb key value tables.common enc
    if c1.1 > 0 then
      id3v2_write_metadata_loop tables enc rest c1.2.2
        { id3 with len := id3.len + c1.1.toNat } c1.2.1
    else
      let c2 := id3v2_check_write_tag c1.2.2 id3 c1.2.1 key value
        (if id3.version = 3 then tables.v3 else tables.v4) enc
      if c2.1 > 0 then
        id3v2_write_metadata_loop tables enc rest c2.2.2
          { id3 with len := id3.len + c2.1.toNat } c2.2.1
      else
        let c3 := id3v2_put_ttag c2.2.2 id3 c2.2.1 key (some value) TXXX_tag enc
        if c3.1 < 0 then (c3.1, id3, c3.2.1, c3.2.2)
        else
          id3v2_write_metadata_loop tables enc rest c3.2.2
            { id3 with len := id3.len + c3.1.toNat } c3.2.1

/-- ff_id3v2_write_metadata: choose the encoding from the version (v3 uses
UTF-16 with BOM, v4 UTF-8) and drive the loop over the metadata entries.
The ff_metadata_conv canonicalization called first is external (metadata.c);
`entries` is the post-conversion dictionary in its stored order (what
av_dict_get with AV_DICT_IGNORE_SUFFIX iterates). -/
def ff_id3v2_write_metadata (tables : Id3Tables) (entries : List (List Nat × List Nat))
    (alloc : List Bool) (id3 : ID3v2EncContext) (pb : AVIOContext) :
    Int × ID3v2EncContext × AVIOContext × List Bool :=
  id3v2_write_metadata_loop tables
    (if id3.version = 3 then ID3v2Encoding.UTF16BOM else ID3v2Encoding.UTF8)
    entries alloc id3 pb

/-- ff_id3v2_start: write the 10-byte header shell (magic+version word,
revision 0, flags 0) and reserve 4 zero bytes for the size at `size_pos`. -/
def ff_id3v2_start (id3 : ID3v2EncContext) (pb : AVIOContext) (id3v2_version : Nat)
    (magic : List Nat) : ID3v2EncContext × AVIOContext :=
  let id3 := { id3 with version := id3v2_version }
  let pb := avio_wb32 pb
    (MKBETAG (magic.getD 0 0) (magic.getD 1 0) (magic.getD 2 0) id3v2_version)
  let pb := avio_w8 pb 0
  let pb := avio_w8 pb 0
  let id3 := { id3 with size_pos := avio_tell pb }
  let pb := avio_wb32 pb 0
  (id3, pb)

/-- ff_id3v2_finish: save the cursor, seek to the reserved size field, write
the synchsafe total length, seek back. -/
def ff_id3v2_finish (id3 : ID3v2EncContext) (pb : AVIOContext) : AVIOContext :=
  let cur_pos := avio_tell pb
  let pb := avio_seek pb id3.size_pos
  let pb := id3v2_put_size pb id3.len
  avio_seek pb cur_pos

/-- ff_id3v2_write_simple: zero-init a context, start, write the metadata,
propagate a negative result without finishing, otherwise finish and return 0. -/
def ff_id3v2_write_simple (tables : Id3Tables) (entries : List (List Nat × List Nat))
    (alloc : List Bool) (pb : AVIOContext) (id3v2_version : Nat) (magic : List Nat) :
    Int × AVIOContext × List Bool :=
  let id3 : ID3v2EncContext := ⟨0, 0, 0⟩
  let r := ff_id3v2_start id3 pb id3v2_version magic
  let m := ff_id3v2_write_metadata tables entries alloc r.1 r.2
  if m.1 < 0 then (m.1, m.2.2.1, m.2.2.2)
  else (0, ff_id3v2_finish m.2.1 m.2.2.1, m.2.2.2)

/-- The four big-endian bytes of a 32-bit write. -/
def be32_bytes (v : Nat) : List Nat :=
  [(v >>> 24) % 256, (v >>> 16) % 256, (v >>> 8) % 256, v % 256]

/-- The four synchsafe bytes written by id3v2_put_size. -/
def synchsafe_bytes (v : Nat) : List Nat :=
  [v >>> 21 &&& 0x7f, v >>> 14 &&& 0x7f, v >>> 7 &&& 0x7f, v &&& 0x7f]

/-- Reassembling the four 7-bit groups of a synchsafe encoding. -/
def synchsafe_decode (b0 b1 b2 b3 : Nat) : Nat :=
  b0 * 2 ^ 21 + b1 * 2 ^ 14 + b2 * 2 ^ 7 + b3

/-- The bytes avio_put_str leaves in the stream. -/
def cstr_bytes (s : List Nat) : List Nat := (s ++ [0]).map (· % 256)

/-- The bytes avio_put_str16le leaves in the stream. -/
def cstr16_bytes (s : List Nat) : List Nat := (utf8_to_utf16le s ++ [0, 0]).map (· % 256)

/-- The scratch-buffer contents of id3v2_put_ttag for the already-selected
encoding: indicator byte, BOM when UTF-16, then the one or two strings. -/
def ttag_payload (enc : ID3v2Encoding) (str1 : List Nat) (str2 : Option (List Nat)) :
    List Nat :=
  if enc == .UTF16BOM then
    enc.code :: 0xFF :: 0xFE ::
      (cstr16_bytes str1 ++ (match str2 with | none => [] | some s => cstr16_bytes s))
  else
    enc.code ::
      (cstr_bytes str1 ++ (match str2 with | none => [] | some s => cstr_bytes s))

/-- The full frame as emitted to the real stream: big-endian tag, size field
(raw under version 3, synchsafe otherwise), two zero flag bytes, payload. -/
def ttag_frame_bytes (version : Nat) (tag : Nat) (payload : List Nat) : List Nat :=
  be32_bytes tag ++
    (if version = 3 then be32_bytes payload.length else synchsafe_bytes payload.length) ++
    [0, 0] ++ payload

/-- The start, writeMetadata, finish pipeline of ff_id3v2_write_simple with
the intermediate states exposed: (writeMetadata return value, final context,
stream just before finish, stream after finish). -/
def runTag (tables : Id3Tables) (entries : List (List Nat × List Nat)) (alloc : List Bool)
    (pb0 : AVIOContext) (version : Nat) (magic : List Nat) :
    Int × ID3v2EncContext × AVIOContext × AVIOContext :=
  let r := ff_id3v2_start ⟨0, 0, 0⟩ pb0 version magic
  let m := ff_id3v2_write_metadata tables entries alloc r.1 r.2
  (m.1, m.2.1, m.2.2.1, ff_id3v2_finish m.2.1 m.2.2.1)

/-- A concrete table set used for counterexamples: the common table holds only
the entry TALB, the version-specific tables are empty. -/
def exTables : Id3Tables := ⟨[[84, 65, 76, 66]], [], []⟩

end ID3v2

namespace ID3v2

/-! Lemmas about the byte-sink primitives: writing at the end of the stream
appends, writing in the middle overwrites in place. -/

theorem avio_w8_append (pb : AVIOContext) (b : Nat) (h : pb.pos = pb.data.length) :
    avio_w8 pb b = ⟨pb.data ++ [b % 256], pb.data.length + 1⟩ := by
  simp [avio_w8, writeAt, h]

theorem avio_write_append (l : List Nat) (pb : AVIOContext) (h : pb.pos = pb.data.length) :
    avio_write pb l = ⟨pb.data ++ l.map (· % 256), pb.data.length + l.length⟩ := by
  induction l generalizing pb with
  | nil => cases pb; simp_all [avio_write]
  | cons b t ih =>
    show avio_write (avio_w8 pb b) t = _
    rw [avio_w8_append pb b h]
    rw [ih ⟨pb.data ++ [b % 256], pb.data.length + 1⟩ (by simp)]
    simp [List.append_assoc]
    omega

theorem avio_wb32_append (pb : AVIOContext) (v : Nat) (h : pb.pos = pb.data.length) :
    avio_wb32 pb v = ⟨pb.data ++ be32_bytes v, pb.data.length + 4⟩ := by
  rw [show avio_wb32 pb v = avio_write pb [v >>> 24, v >>> 16, v >>> 8, v] from rfl,
    avio_write_append _ _ h]
  simp [be32_bytes]

theorem avio_wb16_append (pb : AVIOContext) (v : Nat) (h : pb.pos = pb.data.length) :
    avio_wb16 pb v = ⟨pb.data ++ [(v >>> 8) % 256, v % 256], pb.data.length + 2⟩ := by
  rw [show avio_wb16 pb v = avio_write pb [v >>> 8, v] from rfl, avio_write_append _ _ h]
  simp

theorem avio_wl16_append (pb : AVIOContext) (v : Nat) (h : pb.pos = pb.data.length) :
    avio_wl16 pb v = ⟨pb.data ++ [v % 256, (v >>> 8) % 256], pb.data.length + 2⟩ := by
  rw [show avio_wl16 pb v = avio_write pb [v, v >>> 8] from rfl, avio_write_append _ _ h]
  simp

theorem and127_lt (x : Nat) : x &&& 0x7f < 128 :=
  Nat.lt_of_le_of_lt Nat.and_le_right (by norm_num)

theorem and127_mod256 (x : Nat) : (x &&& 0x7f) % 256 = x &&& 0x7f :=
  Nat.mod_eq_of_lt (Nat.lt_of_lt_of_le (and127_lt x) (by norm_num))

theorem id3v2_put_size_append (pb : AVIOContext) (v : Nat) (h : pb.pos = pb.data.length) :
    id3v2_put_size pb v = ⟨pb.data ++ synchsafe_bytes v, pb.data.length + 4⟩ := by
  rw [show id3v2_put_size pb v =
      avio_write pb [v >>> 21 &&& 0x7f, v >>> 14 &&& 0x7f, v >>> 7 &&& 0x7f, v &&& 0x7f]
    from rfl, avio_write_append _ _ h]
  simp [synchsafe_bytes, and127_mod256]

theorem avio_put_str_append (pb : AVIOContext) (s : List Nat) (h : pb.pos = pb.data.length) :
    avio_put_str pb s = ⟨pb.data ++ cstr_bytes s, pb.data.length + (cstr_bytes s).length⟩ := by
  unfold avio_put_str cstr_bytes
  rw [avio_write_append _ _ h]
  simp

theorem avio_put_str16le_append (pb : AVIOContext) (s : List Nat)
    (h : pb.pos = pb.data.length) :
    avio_put_str16le pb s =
      ⟨pb.data ++ cstr16_bytes s, pb.data.length + (cstr16_bytes s).length⟩ := by
  unfold avio_put_str16le cstr16_bytes
  rw [avio_write_append _ _ h]
  simp

theorem set_append_cons (pre : List Nat) (x b : Nat) (post : List Nat) :
    (pre ++ x :: post).set pre.length b = pre ++ b :: post := by
  induction pre with
  | nil => rfl
  | cons a t ih => simp [List.set, ih]

theorem avio_w8_overwrite (pre post : List Nat) (x b : Nat) :
    avio_w8 ⟨pre ++ x :: post, pre.length⟩ b =
      ⟨pre ++ (b % 256) :: post, pre.length + 1⟩ := by
  simp [avio_w8, writeAt, set_append_cons]

theorem id3v2_put_size_overwrite (pre post : List Nat) (a b c d v : Nat) :
    id3v2_put_size ⟨pre ++ a :: b :: c :: d :: post, pre.length⟩ v =
      ⟨pre ++ synchsafe_bytes v ++ post, pre.length + 4⟩ := by
  unfold id3v2_put_size
  rw [avio_w8_overwrite pre (b :: c :: d :: post) a _]
  have e1 : pre ++ ((v >>> 21 &&& 0x7f) % 256) :: b :: c :: d :: post =
      (pre ++ [(v >>> 21 &&& 0x7f) % 256]) ++ b :: c :: d :: post := by simp
  have l1 : pre.length + 1 = (pre ++ [(v >>> 21 &&& 0x7f) % 256]).length := by simp
  rw [e1, l1, avio_w8_overwrite _ (c :: d :: post) b _]
  have e2 : (pre ++ [(v >>> 21 &&& 0x7f) % 256]) ++ ((v >>> 14 &&& 0x7f) % 256) :: c :: d :: post =
      (pre ++ [(v >>> 21 &&& 0x7f) % 256, (v >>> 14 &&& 0x7f) % 256]) ++ c :: d :: post := by simp
  have l2 : (pre ++ [(v >>> 21 &&& 0x7f) % 256]).length + 1 =
      (pre ++ [(v >>> 21 &&& 0x7f) % 256, (v >>> 14 &&& 0x7f) % 256]).length := by simp
  rw [e2, l2, avio_w8_overwrite _ (d :: post) c _]
  have e3 : (pre ++ [(v >>> 21 &&& 0x7f) % 256, (v >>> 14 &&& 0x7f) % 256]) ++
        ((v >>> 7 &&& 0x7f) % 256) :: d :: post =
      (pre ++ [(v >>> 21 &&& 0x7f) % 256, (v >>> 14 &&& 0x7f) % 256,
        (v >>> 7 &&& 0x7f) % 256]) ++ d :: post := by simp
  have l3 : (pre ++ [(v >>> 21 &&& 0x7f) % 256, (v >>> 14 &&& 0x7f) % 256]).length + 1 =
      (pre ++ [(v >>> 21 &&& 0x7f) % 256, (v >>> 14 &&& 0x7f) % 256,
        (v >>> 7 &&& 0x7f) % 256]).length := by simp
  rw [e3, l3, avio_w8_overwrite _ post d _]
  simp [synchsafe_bytes, and127_mod256]

end ID3v2

namespace ID3v2

/-! Lemmas about the scratch buffer and id3v2_put_ttag. -/

theorem code_lt (e : ID3v2Encoding) : e.code < 256 := by
  cases e <;> simp [ID3v2Encoding.code]

theorem code_mod256 (e : ID3v2Encoding) : e.code % 256 = e.code :=
  Nat.mod_eq_of_lt (code_lt e)

theorem mod256_map_idem (l : List Nat) :
    (l.map (· % 256)).map (· % 256) = l.map (· % 256) := by
  simp [List.map_map, Function.comp]

theorem ttag_payload_map (enc : ID3v2Encoding) (str1 : List Nat)
    (str2 : Option (List Nat)) :
    (ttag_payload enc str1 str2).map (· % 256) = ttag_payload enc str1 str2 := by
  unfold ttag_payload cstr_bytes cstr16_bytes
  cases str2 <;> by_cases he : enc == ID3v2Encoding.UTF16BOM <;>
    simp [he, code_mod256, List.map_map, Function.comp_def]

theorem id3v2_ttag_dyn_eq (enc : ID3v2Encoding) (str1 : List Nat)
    (str2 : Option (List Nat)) :
    id3v2_ttag_dyn enc str1 str2 =
      ⟨ttag_payload enc str1 str2, (ttag_payload enc str1 str2).length⟩ := by
  cases str2 with
  | none =>
    by_cases he : enc == ID3v2Encoding.UTF16BOM
    · simp only [id3v2_ttag_dyn, he, if_pos]
      rw [show avio_wl16 (avio_w8 ⟨[], 0⟩ enc.code) 0xFEFF =
            ⟨[enc.code % 256, 255, 254], 3⟩ from rfl]
      rw [avio_put_str16le_append ⟨[enc.code % 256, 255, 254], 3⟩ str1 rfl]
      simp [ttag_payload, he, code_mod256]
      omega
    · simp only [id3v2_ttag_dyn, he, if_neg, Bool.false_eq_true, not_false_iff]
      rw [show avio_w8 (⟨[], 0⟩ : AVIOContext) enc.code = ⟨[enc.code % 256], 1⟩ from rfl]
      rw [avio_put_str_append ⟨[enc.code % 256], 1⟩ str1 rfl]
      simp [ttag_payload, he, code_mod256]
      omega
  | some s =>
    by_cases he : enc == ID3v2Encoding.UTF16BOM
    · simp only [id3v2_ttag_dyn, he, if_pos]
      rw [show avio_wl16 (avio_w8 ⟨[], 0⟩ enc.code) 0xFEFF =
            ⟨[enc.code % 256, 255, 254], 3⟩ from rfl]
      rw [avio_put_str16le_append ⟨[enc.code % 256, 255, 254], 3⟩ str1 rfl]
      rw [avio_put_str16le_append _ s (by simp; omega)]
      simp [ttag_payload, he, code_mod256, List.append_assoc]
      omega
    · simp only [id3v2_ttag_dyn, he, if_neg, Bool.false_eq_true, not_false_iff]
      rw [show avio_w8 (⟨[], 0⟩ : AVIOContext) enc.code = ⟨[enc.code % 256], 1⟩ from rfl]
      rw [avio_put_str_append ⟨[enc.code % 256], 1⟩ str1 rfl]
      rw [avio_put_str_append _ s (by simp; omega)]
      simp [ttag_payload, he, code_mod256, List.append_assoc]
      omega

theorem be32_bytes_length (v : Nat) : (be32_bytes v).length = 4 := rfl

theorem synchsafe_bytes_length (v : Nat) : (synchsafe_bytes v).length = 4 := rfl

theorem id3v2_put_ttag_fail (alloc : List Bool) (id3 : ID3v2EncContext)
    (avioc : AVIOContext) (str1 : List Nat) (str2 : Option (List Nat)) (tag : Nat)
    (enc0 : ID3v2Encoding) (ha : (allocNext alloc).1 = false) :
    id3v2_put_ttag alloc id3 avioc str1 str2 tag enc0 =
      (AVERROR_ENOMEM, avioc, (allocNext alloc).2) := by
  simp [id3v2_put_ttag, ha]

theorem id3v2_put_ttag_ok (alloc : List Bool) (id3 : ID3v2EncContext)
    (avioc : AVIOContext) (str1 : List Nat) (str2 : Option (List Nat)) (tag : Nat)
    (enc0 : ID3v2Encoding) (ha : (allocNext alloc).1 = true)
    (h : avioc.pos = avioc.data.length) :
    id3v2_put_ttag alloc id3 avioc str1 str2 tag enc0 =
      (((ttag_payload (id3v2_select_enc enc0 str1 str2) str1 str2).length : Int) + 10,
       ⟨avioc.data ++ ttag_frame_bytes id3.version tag
          (ttag_payload (id3v2_select_enc enc0 str1 str2) str1 str2),
        avioc.data.length + 10 +
          (ttag_payload (id3v2_select_enc enc0 str1 str2) str1 str2).length⟩,
       (allocNext alloc).2) := by
  have hne : ¬ ((allocNext alloc).1 = false) := by simp [ha]
  simp only [id3v2_put_ttag, hne, if_neg, id3v2_ttag_dyn_eq]
  by_cases hv : id3.version = 3 <;>
    simp [hv, h, avio_wb32_append, avio_wb16_append, id3v2_put_size_append,
      avio_write_append, ttag_payload_map, ttag_frame_bytes, ID3v2_HEADER_SIZE,
      be32_bytes_length, synchsafe_bytes_length, List.append_assoc]

end ID3v2

namespace ID3v2

/-! Append-only behaviour of the frame writers, packaged for the loop
invariant: every call either appends exactly the bytes its return value
counts, or appends nothing when it does not report success. -/

theorem ttag_frame_bytes_length (version tag : Nat) (payload : List Nat) :
    (ttag_frame_bytes version tag payload).length = payload.length + 10 := by
  by_cases hv : version = 3 <;>
    simp [ttag_frame_bytes, hv, be32_bytes_length, synchsafe_bytes_length] <;> omega

theorem id3v2_put_ttag_spec (alloc : List Bool) (id3 : ID3v2EncContext)
    (pb : AVIOContext) (str1 : List Nat) (str2 : Option (List Nat)) (tag : Nat)
    (enc0 : ID3v2Encoding) (h : pb.pos = pb.data.length) :
    ∃ extra : List Nat,
      (id3v2_put_ttag alloc id3 pb str1 str2 tag enc0).2.1.data = pb.data ++ extra ∧
      (id3v2_put_ttag alloc id3 pb str1 str2 tag enc0).2.1.pos =
        (id3v2_put_ttag alloc id3 pb str1 str2 tag enc0).2.1.data.length ∧
      ((id3v2_put_ttag alloc id3 pb str1 str2 tag enc0).1 > 0 →
        (id3v2_put_ttag alloc id3 pb str1 str2 tag enc0).1.toNat = extra.length) ∧
      (¬ (id3v2_put_ttag alloc id3 pb str1 str2 tag enc0).1 > 0 → extra = []) := by
  by_cases ha : (allocNext alloc).1 = true
  · rw [id3v2_put_ttag_ok alloc id3 pb str1 str2 tag enc0 ha h]
    refine ⟨ttag_frame_bytes id3.version tag
        (ttag_payload (id3v2_select_enc enc0 str1 str2) str1 str2), rfl, ?_, ?_, ?_⟩
    · simp [ttag_frame_bytes_length]
      omega
    · intro _
      simp [ttag_frame_bytes_length]
      omega
    · intro hc
      exfalso
      apply hc
      have : 0 ≤ ((ttag_payload (id3v2_select_enc enc0 str1 str2) str1 str2).length : Int) :=
        Int.natCast_nonneg _
      omega
  · have ha2 : (allocNext alloc).1 = false := by
      cases hx : (allocNext alloc).1
      · rfl
      · exact absurd hx ha
    rw [id3v2_put_ttag_fail alloc id3 pb str1 str2 tag enc0 ha2]
    refine ⟨[], by simp, h, ?_, fun _ => rfl⟩
    intro hc
    exfalso
    simp [AVERROR_ENOMEM] at hc

theorem id3v2_check_write_tag_spec (alloc : List Bool) (id3 : ID3v2EncContext)
    (pb : AVIOContext) (key value : List Nat) (table : List (List Nat))
    (enc : ID3v2Encoding) (h : pb.pos = pb.data.length) :
    ∃ extra : List Nat,
      (id3v2_check_write_tag alloc id3 pb key value table enc).2.1.data = pb.data ++ extra ∧
      (id3v2_check_write_tag alloc id3 pb key value table enc).2.1.pos =
        (id3v2_check_write_tag alloc id3 pb key value table enc).2.1.data.length ∧
      ((id3v2_check_write_tag alloc id3 pb key value table enc).1 > 0 →
        (id3v2_check_write_tag alloc id3 pb key value table enc).1.toNat = extra.length) ∧
      (¬ (id3v2_check_write_tag alloc id3 pb key value table enc).1 > 0 → extra = []) := by
  unfold id3v2_check_write_tag
  by_cases hk : key.getD 0 0 ≠ 84 ∨ key.length ≠ 4
  · rw [if_pos hk]
    refine ⟨[], by simp, h, ?_, fun _ => rfl⟩
    intro hc
    norm_num at hc
  · rw [if_neg hk]
    by_cases ht : table_has_tag table (AV_RB32 key) = true
    · rw [if_pos ht]
      exact id3v2_put_ttag_spec alloc id3 pb value none (AV_RB32 key) enc h
    · rw [if_neg ht]
      refine ⟨[], by simp, h, ?_, fun _ => rfl⟩
      intro hc
      norm_num at hc

theorem id3v2_write_metadata_loop_spec (tables : Id3Tables) (enc : ID3v2Encoding)
    (entries : List (List Nat × List Nat)) (alloc : List Bool)
    (id3 : ID3v2EncContext) (pb : AVIOContext) (h : pb.pos = pb.data.length) :
    ∃ extra : List Nat,
      (id3v2_write_metadata_loop tables enc entries alloc id3 pb).2.2.1.data =
        pb.data ++ extra ∧
      (id3v2_write_metadata_loop tables enc entries alloc id3 pb).2.2.1.pos =
        (id3v2_write_metadata_loop tables enc entries alloc id3 pb).2.2.1.data.length ∧
      (id3v2_write_metadata_loop tables enc entries alloc id3 pb).2.1.len =
        id3.len + extra.length ∧
      (id3v2_write_metadata_loop tables enc entries alloc id3 pb).2.1.version =
        id3.version ∧
      (id3v2_write_metadata_loop tables enc entries alloc id3 pb).2.1.size_pos =
        id3.size_pos := by
  induction entries generalizing alloc id3 pb with
  | nil => exact ⟨[], by simp [id3v2_write_metadata_loop],
      by simp [id3v2_write_metadata_loop, h],
      by simp [id3v2_write_metadata_loop], rfl, rfl⟩
  | cons kv rest ih =>
    obtain ⟨key, value⟩ := kv
    obtain ⟨x1, hd1, hp1, hs1, hf1⟩ :=
      id3v2_check_write_tag_spec alloc id3 pb key value tables.common enc h
    simp only [id3v2_write_metadata_loop]
    generalize hg1 : id3v2_check_write_tag alloc id3 pb key value tables.common enc = c1
      at hd1 hp1 hs1 hf1 ⊢
    obtain ⟨r1, pb1, a1⟩ := c1
    dsimp only at hd1 hp1 hs1 hf1 ⊢
    by_cases h1 : r1 > 0
    · rw [if_pos h1]
      obtain ⟨x2, hd2, hp2, hl2, hv2, hz2⟩ := ih a1 { id3 with len := id3.len + r1.toNat } pb1 hp1
      refine ⟨x1 ++ x2, ?_, hp2, ?_, hv2, hz2⟩
      · rw [hd2, hd1, List.append_assoc]
      · rw [hl2]
        simp [hs1 h1]
        omega
    · rw [if_neg h1]
      have hx1 : x1 = [] := hf1 h1
      subst hx1
      rw [List.append_nil] at hd1
      obtain ⟨x2, hd2, hp2, hs2, hf2⟩ :=
        id3v2_check_write_tag_spec a1 id3 pb1 key value
          (if id3.version = 3 then tables.v3 else tables.v4) enc hp1
      generalize hg2 : id3v2_check_write_tag a1 id3 pb1 key value
          (if id3.version = 3 then tables.v3 else tables.v4) enc = c2
        at hd2 hp2 hs2 hf2 ⊢
      obtain ⟨r2, pb2, a2⟩ := c2
      dsimp only at hd2 hp2 hs2 hf2 ⊢
      by_cases h2 : r2 > 0
      · rw [if_pos h2]
        obtain ⟨x3, hd3, hp3, hl3, hv3, hz3⟩ := ih a2 { id3 with len := id3.len + r2.toNat } pb2 hp2
        refine ⟨x2 ++ x3, ?_, hp3, ?_, hv3, hz3⟩
        · rw [hd3, hd2, hd1, List.append_assoc]
        · rw [hl3]
          simp [hs2 h2]
          omega
      · rw [if_neg h2]
        have hx2 : x2 = [] := hf2 h2
        subst hx2
        rw [List.append_nil] at hd2
        obtain ⟨x3, hd3, hp3, hs3, hf3⟩ :=
          id3v2_put_ttag_spec a2 id3 pb2 key (some value) TXXX_tag enc hp2
        generalize hg3 : id3v2_put_ttag a2 id3 pb2 key (some value) TXXX_tag enc = c3
          at hd3 hp3 hs3 hf3 ⊢
        obtain ⟨r3, pb3, a3⟩ := c3
        dsimp only at hd3 hp3 hs3 hf3 ⊢
        by_cases h3 : r3 < 0
        · rw [if_pos h3]
          have hx3 : x3 = [] := hf3 (by omega)
          subst hx3
          rw [List.append_nil] at hd3
          exact ⟨[], by rw [hd3, hd2, hd1, List.append_nil], hp3, by simp, rfl, rfl⟩
        · rw [if_neg h3]
          obtain ⟨x4, hd4, hp4, hl4, hv4, hz4⟩ := ih a3 { id3 with len := id3.len + r3.toNat } pb3 hp3
          refine ⟨x3 ++ x4, ?_, hp4, ?_, hv4, hz4⟩
          · rw [hd4, hd3, hd2, hd1, List.append_assoc]
          · rw [hl4]
            by_cases h3p : r3 > 0
            · simp [hs3 h3p]
              omega
            · have hx3 : x3 = [] := hf3 h3p
              subst hx3
              have : r3 = 0 := by omega
              simp [this]

theorem ff_id3v2_write_metadata_spec (tables : Id3Tables)
    (entries : List (List Nat × List Nat)) (alloc : List Bool)
    (id3 : ID3v2EncContext) (pb : AVIOContext) (h : pb.pos = pb.data.length) :
    ∃ extra : List Nat,
      (ff_id3v2_write_metadata tables entries alloc id3 pb).2.2.1.data =
        pb.data ++ extra ∧
      (ff_id3v2_write_metadata tables entries alloc id3 pb).2.2.1.pos =
        (ff_id3v2_write_metadata tables entries alloc id3 pb).2.2.1.data.length ∧
      (ff_id3v2_write_metadata tables entries alloc id3 pb).2.1.len =
        id3.len + extra.length ∧
      (ff_id3v2_write_metadata tables entries alloc id3 pb).2.1.version =
        id3.version ∧
      (ff_id3v2_write_metadata tables entries alloc id3 pb).2.1.size_pos =
        id3.size_pos := by
  unfold ff_id3v2_write_metadata
  exact id3v2_write_metadata_loop_spec tables _ entries alloc id3 pb h

theorem ff_id3v2_start_spec (id3 : ID3v2EncContext) (pb : AVIOContext) (version : Nat)
    (magic : List Nat) (h : pb.pos = pb.data.length) :
    ∃ hdr6 : List Nat, hdr6.length = 6 ∧
      (ff_id3v2_start id3 pb version magic).2.data = pb.data ++ hdr6 ++ [0, 0, 0, 0] ∧
      (ff_id3v2_start id3 pb version magic).2.pos = pb.data.length + 10 ∧
      (ff_id3v2_start id3 pb version magic).1.size_pos = pb.data.length + 6 ∧
      (ff_id3v2_start id3 pb version magic).1.version = version ∧
      (ff_id3v2_start id3 pb version magic).1.len = id3.len := by
  refine ⟨be32_bytes (MKBETAG (magic.getD 0 0) (magic.getD 1 0) (magic.getD 2 0) version)
      ++ [0, 0], by simp [be32_bytes], ?_, ?_, ?_, ?_, ?_⟩ <;>
    simp [ff_id3v2_start, avio_tell, h, avio_wb32_append, avio_w8_append,
      be32_bytes, Nat.zero_shiftRight, List.append_assoc]

theorem ff_id3v2_finish_overwrite (id3 : ID3v2EncContext) (pre post : List Nat)
    (a b c d : Nat) (pos : Nat) (hsz : id3.size_pos = pre.length) :
    ff_id3v2_finish id3 ⟨pre ++ a :: b :: c :: d :: post, pos⟩ =
      ⟨pre ++ synchsafe_bytes id3.len ++ post, pos⟩ := by
  unfold ff_id3v2_finish avio_seek avio_tell
  dsimp only
  rw [hsz, id3v2_put_size_overwrite]

theorem string_is_ascii_iff (s : List Nat) (h : 0 ∉ s) :
    string_is_ascii s = true ↔ ∀ c ∈ s, c < 128 := by
  induction s with
  | nil => simp [string_is_ascii]
  | cons c t ih =>
    rw [List.mem_cons, not_or] at h
    have hc0 : c ≠ 0 := fun hh => h.1 hh.symm
    by_cases hc : c < 128
    · rw [string_is_ascii, if_pos ⟨hc0, hc⟩]
      simp [ih h.2, hc]
    · rw [string_is_ascii, if_neg (fun hh => hc hh.2)]
      simp [hc0, hc]

theorem map_mod256_eq (l : List Nat) (h : ∀ b ∈ l, b < 256) : l.map (· % 256) = l := by
  induction l with
  | nil => rfl
  | cons b t ih =>
    rw [List.map_cons, Nat.mod_eq_of_lt (h b (List.mem_cons_self b t)),
      ih (fun x hx => h x (List.mem_cons_of_mem b hx))]

theorem mem_mod256_lt2 (x1 x2 : Nat) : ∀ b ∈ [x1 % 256, x2 % 256], b < 256 := by
  intro b hb
  simp only [List.mem_cons, List.not_mem_nil, or_false] at hb
  rcases hb with rfl | rfl <;> exact Nat.mod_lt _ (by norm_num)

theorem mem_mod256_lt4 (x1 x2 x3 x4 : Nat) :
    ∀ b ∈ [x1 % 256, x2 % 256, x3 % 256, x4 % 256], b < 256 := by
  intro b hb
  simp only [List.mem_cons, List.not_mem_nil, or_false] at hb
  rcases hb with rfl | rfl | rfl | rfl <;> exact Nat.mod_lt _ (by norm_num)

theorem utf16le_bytes_lt (cp : Nat) : ∀ b ∈ utf16le_bytes cp, b < 256 := by
  unfold utf16le_bytes
  by_cases hcp : cp < 0x10000
  · rw [if_pos hcp]
    exact mem_mod256_lt2 _ _
  · rw [if_neg hcp]
    exact mem_mod256_lt4 _ _ _ _

theorem utf8_to_utf16le_lt (s : List Nat) : ∀ b ∈ utf8_to_utf16le s, b < 256 := by
  intro b hb
  unfold utf8_to_utf16le at hb
  rw [List.mem_flatten] at hb
  obtain ⟨l, hl, hbl⟩ := hb
  rw [List.mem_map] at hl
  obtain ⟨cp, _, rfl⟩ := hl
  exact utf16le_bytes_lt cp b hbl

theorem cstr16_bytes_eq (s : List Nat) : cstr16_bytes s = utf8_to_utf16le s ++ [0, 0] := by
  unfold cstr16_bytes
  apply map_mod256_eq
  intro b hb
  rw [List.mem_append] at hb
  rcases hb with hb | hb
  · exact utf8_to_utf16le_lt s b hb
  · simp at hb
    omega

theorem cstr_bytes_eq (s : List Nat) (h : ∀ b ∈ s, b < 256) :
    cstr_bytes s = s ++ [0] := by
  unfold cstr_bytes
  apply map_mod256_eq
  intro b hb
  rw [List.mem_append] at hb
  rcases hb with hb | hb
  · exact h b hb
  · simp at hb
    omega

theorem id3v2_put_ttag_ret_pos (alloc : List Bool) (id3 : ID3v2EncContext)
    (pb : AVIOContext) (str1 : List Nat) (str2 : Option (List Nat)) (tag : Nat)
    (enc0 : ID3v2Encoding) (ha : (allocNext alloc).1 = true)
    (h : pb.pos = pb.data.length) :
    (id3v2_put_ttag alloc id3 pb str1 str2 tag enc0).1 > 0 := by
  rw [id3v2_put_ttag_ok alloc id3 pb str1 str2 tag enc0 ha h]
  have : 0 ≤ ((ttag_payload (id3v2_select_enc enc0 str1 str2) str1 str2).length : Int) :=
    Int.natCast_nonneg _
  dsimp only
  omega

/-! The claims. -/

/-- C2: for every n in [0, 0x0FFFFFFF], id3v2_put_size emits exactly the four
bytes (n >> 21) & 0x7F, (n >> 14) & 0x7F, (n >> 7) & 0x7F, n & 0x7F, each
below 128, and reassembling the four 7-bit groups recovers n. -/
theorem synchsafe_encode_decode (n : Nat) (pb : AVIOContext)
    (hn : n ≤ 0x0FFFFFFF) (hp : pb.pos = pb.data.length) :
    (id3v2_put_size pb n).data =
      pb.data ++ [n >>> 21 &&& 0x7f, n >>> 14 &&& 0x7f, n >>> 7 &&& 0x7f, n &&& 0x7f] ∧
    (∀ b ∈ [n >>> 21 &&& 0x7f, n >>> 14 &&& 0x7f, n >>> 7 &&& 0x7f, n &&& 0x7f], b < 128) ∧
    synchsafe_decode (n >>> 21 &&& 0x7f) (n >>> 14 &&& 0x7f) (n >>> 7 &&& 0x7f)
      (n &&& 0x7f) = n := by
  refine ⟨?_, ?_, ?_⟩
  · rw [id3v2_put_size_append pb n hp]
    simp [synchsafe_bytes]
  · intro b hb
    simp only [List.mem_cons, List.not_mem_nil, or_false] at hb
    rcases hb with rfl | rfl | rfl | rfl <;> exact and127_lt _
  · unfold synchsafe_decode
    have h21 := Nat.and_pow_two_sub_one_eq_mod (n >>> 21) 7
    have h14 := Nat.and_pow_two_sub_one_eq_mod (n >>> 14) 7
    have h7 := Nat.and_pow_two_sub_one_eq_mod (n >>> 7) 7
    have h0 := Nat.and_pow_two_sub_one_eq_mod n 7
    simp only [Nat.shiftRight_eq_div_pow] at *
    norm_num at *
    omega

/-- Witness for C2 at n = 2000000 on the empty stream. -/
theorem synchsafe_encode_decode_witness :
    (id3v2_put_size ⟨[], 0⟩ 2000000).data =
      [] ++ [2000000 >>> 21 &&& 0x7f, 2000000 >>> 14 &&& 0x7f, 2000000 >>> 7 &&& 0x7f,
        2000000 &&& 0x7f] ∧
    (∀ b ∈ [2000000 >>> 21 &&& 0x7f, 2000000 >>> 14 &&& 0x7f, 2000000 >>> 7 &&& 0x7f,
      2000000 &&& 0x7f], b < 128) ∧
    synchsafe_decode (2000000 >>> 21 &&& 0x7f) (2000000 >>> 14 &&& 0x7f)
      (2000000 >>> 7 &&& 0x7f) (2000000 &&& 0x7f) = 2000000 :=
  synchsafe_encode_decode 2000000 ⟨[], 0⟩ (by norm_num) rfl

/-- C7: when the scratch dynamic-buffer allocation fails, id3v2_put_ttag
returns AVERROR(ENOMEM) and the real output stream is returned untouched. -/
theorem put_ttag_alloc_fail_clean (alloc : List Bool) (id3 : ID3v2EncContext)
    (avioc : AVIOContext) (str1 : List Nat) (str2 : Option (List Nat)) (tag : Nat)
    (enc0 : ID3v2Encoding) :
    id3v2_put_ttag (false :: alloc) id3 avioc str1 str2 tag enc0 =
      (AVERROR_ENOMEM, avioc, alloc) :=
  id3v2_put_ttag_fail (false :: alloc) id3 avioc str1 str2 tag enc0 rfl

/-- C3: a successful text-frame write emits the 4-byte big-endian tag id, a
size field that is raw big-endian under version 3 and synchsafe otherwise,
two zero flag bytes, then the payload, and returns payload length + 10. -/
theorem put_ttag_emission (id3 : ID3v2EncContext) (avioc : AVIOContext)
    (str1 : List Nat) (str2 : Option (List Nat)) (tag : Nat) (enc0 : ID3v2Encoding)
    (h : avioc.pos = avioc.data.length) :
    (id3v2_put_ttag [] id3 avioc str1 str2 tag enc0).2.1.data =
      avioc.data ++ be32_bytes tag ++
        (if id3.version = 3 then
          be32_bytes (ttag_payload (id3v2_select_enc enc0 str1 str2) str1 str2).length
        else
          synchsafe_bytes (ttag_payload (id3v2_select_enc enc0 str1 str2) str1 str2).length) ++
        [0, 0] ++ ttag_payload (id3v2_select_enc enc0 str1 str2) str1 str2 ∧
    (id3v2_put_ttag [] id3 avioc str1 str2 tag enc0).1 =
      ((ttag_payload (id3v2_select_enc enc0 str1 str2) str1 str2).length : Int) + 10 := by
  rw [id3v2_put_ttag_ok [] id3 avioc str1 str2 tag enc0 rfl h]
  constructor
  · simp [ttag_frame_bytes, List.append_assoc]
  · rfl

/-- Witness for C3: a version-4 TXXX-style frame on the empty stream. -/
theorem put_ttag_emission_witness :
    (id3v2_put_ttag [] ⟨4, 0, 0⟩ ⟨[], 0⟩ [72] (some [75]) 1 .UTF8).2.1.data =
      [] ++ be32_bytes 1 ++
        (if (4 : Nat) = 3 then
          be32_bytes (ttag_payload (id3v2_select_enc .UTF8 [72] (some [75])) [72]
            (some [75])).length
        else
          synchsafe_bytes (ttag_payload (id3v2_select_enc .UTF8 [72] (some [75])) [72]
            (some [75])).length) ++
        [0, 0] ++ ttag_payload (id3v2_select_enc .UTF8 [72] (some [75])) [72] (some [75]) ∧
    (id3v2_put_ttag [] ⟨4, 0, 0⟩ ⟨[], 0⟩ [72] (some [75]) 1 .UTF8).1 =
      ((ttag_payload (id3v2_select_enc .UTF8 [72] (some [75])) [72] (some [75])).length : Int)
        + 10 :=
  put_ttag_emission ⟨4, 0, 0⟩ ⟨[], 0⟩ [72] (some [75]) 1 .UTF8 rfl

/-- C6: with requested encoding UTF-16-with-BOM and every character of the
first string and of the second string (when present) strictly below 128, the
frame uses ISO-8859-1 instead; in every other case, and always for UTF-8, the
requested encoding is kept unchanged. -/
theorem select_enc_cases (enc0 : ID3v2Encoding) (str1 : List Nat)
    (str2 : Option (List Nat)) (h1 : 0 ∉ str1) (h2 : ∀ s, str2 = some s → 0 ∉ s) :
    (enc0 = .UTF16BOM ∧ (∀ c ∈ str1, c < 128) ∧
        (∀ s, str2 = some s → ∀ c ∈ s, c < 128) →
      id3v2_select_enc enc0 str1 str2 = .ISO8859) ∧
    (¬ (enc0 = .UTF16BOM ∧ (∀ c ∈ str1, c < 128) ∧
        (∀ s, str2 = some s → ∀ c ∈ s, c < 128)) →
      id3v2_select_enc enc0 str1 str2 = enc0) ∧
    id3v2_select_enc .UTF8 str1 str2 = .UTF8 := by
  have hiff1 := string_is_ascii_iff str1 h1
  cases str2 with
  | none =>
    refine ⟨?_, ?_, by unfold id3v2_select_enc; simp⟩
    · intro hp
      obtain ⟨he, ha1, _⟩ := hp
      subst he
      unfold id3v2_select_enc
      simp [hiff1.mpr ha1]
    · intro hp
      unfold id3v2_select_enc
      by_cases he : enc0 = ID3v2Encoding.UTF16BOM
      · subst he
        have hna : string_is_ascii str1 = false := by
          cases hb : string_is_ascii str1
          · rfl
          · exact absurd ⟨rfl, hiff1.mp hb, fun s hs => nomatch hs⟩ hp
        simp [hna]
      · simp [he]
  | some s =>
    have hiff2 := string_is_ascii_iff s (h2 s rfl)
    refine ⟨?_, ?_, by unfold id3v2_select_enc; simp⟩
    · intro hp
      obtain ⟨he, ha1, ha2⟩ := hp
      subst he
      unfold id3v2_select_enc
      simp [hiff1.mpr ha1, hiff2.mpr (ha2 s rfl)]
    · intro hp
      unfold id3v2_select_enc
      by_cases he : enc0 = ID3v2Encoding.UTF16BOM
      · subst he
        cases hb1 : string_is_ascii str1
        · simp [hb1]
        · cases hb2 : string_is_ascii s
          · simp [hb1, hb2]
          · exact absurd ⟨rfl, hiff1.mp hb1, fun s' hs' => by
              rw [Option.some_inj] at hs'
              subst hs'
              exact hiff2.mp hb2⟩ hp
      · simp [he]

/-- Witness for C6: the ASCII-only string "A" downgrades UTF-16-with-BOM to
ISO-8859-1. -/
theorem select_enc_cases_witness :
    id3v2_select_enc .UTF16BOM [65] none = .ISO8859 :=
  (select_enc_cases .UTF16BOM [65] none (by simp) (fun s hs => nomatch hs)).1
    ⟨rfl, by simp, fun s hs => nomatch hs⟩

/-- C8 counterexample: for the non-ASCII value "é" ([195, 169] in UTF-8) under
UTF-16-with-BOM, the emitted payload does not begin with 0xFF 0xFE: the
encoding-indicator byte 1 comes first, then the BOM. -/
theorem utf16_bom_first_counterexample :
    ((id3v2_put_ttag [] ⟨4, 0, 0⟩ ⟨[], 0⟩ [195, 169] none 0x54495432
        .UTF16BOM).2.1.data.drop 10).take 2 = [1, 0xFF] ∧
    ¬ ((id3v2_put_ttag [] ⟨4, 0, 0⟩ ⟨[], 0⟩ [195, 169] none 0x54495432
        .UTF16BOM).2.1.data.drop 10).take 2 = [0xFF, 0xFE] := by
  constructor <;> decide

/-- C8 (amended): for a string containing a character at or above 128 under
requested encoding UTF-16-with-BOM, the emitted payload is the encoding
indicator byte 1, then the BOM bytes 0xFF 0xFE, then the UTF-16LE encoding of
the strings (each with its 16-bit zero terminator). -/
theorem utf16_payload_layout (id3 : ID3v2EncContext) (avioc : AVIOContext)
    (str1 : List Nat) (str2 : Option (List Nat)) (tag : Nat)
    (h : avioc.pos = avioc.data.length) (h0 : 0 ∉ str1)
    (hc : ∃ c ∈ str1, 128 ≤ c) :
    (id3v2_put_ttag [] id3 avioc str1 str2 tag .UTF16BOM).2.1.data.drop
        (avioc.data.length + 10) =
      1 :: 0xFF :: 0xFE :: (utf8_to_utf16le str1 ++ [0, 0] ++
        (match str2 with | none => [] | some s => utf8_to_utf16le s ++ [0, 0])) := by
  have hna : string_is_ascii str1 = false := by
    cases hb : string_is_ascii str1
    · rfl
    · exfalso
      obtain ⟨c, hm, hge⟩ := hc
      exact absurd ((string_is_ascii_iff str1 h0).mp hb c hm) (by omega)
  have hsel : id3v2_select_enc .UTF16BOM str1 str2 = .UTF16BOM := by
    unfold id3v2_select_enc
    simp [hna]
  rw [id3v2_put_ttag_ok [] id3 avioc str1 str2 tag .UTF16BOM rfl h, hsel]
  dsimp only
  have hsplit : avioc.data ++
      ttag_frame_bytes id3.version tag (ttag_payload .UTF16BOM str1 str2) =
      (avioc.data ++ be32_bytes tag ++
        (if id3.version = 3 then
          be32_bytes (ttag_payload .UTF16BOM str1 str2).length
        else synchsafe_bytes (ttag_payload .UTF16BOM str1 str2).length) ++ [0, 0]) ++
        ttag_payload .UTF16BOM str1 str2 := by
    simp [ttag_frame_bytes, List.append_assoc]
  rw [hsplit, List.drop_left' (by
    by_cases hv : id3.version = 3 <;>
      simp [hv, be32_bytes_length, synchsafe_bytes_length])]
  unfold ttag_payload
  rw [if_pos (show (ID3v2Encoding.UTF16BOM == ID3v2Encoding.UTF16BOM) = true from rfl)]
  cases str2 with
  | none => simp [ID3v2Encoding.code, cstr16_bytes_eq]
  | some s => simp [ID3v2Encoding.code, cstr16_bytes_eq]

/-- Witness for C8 (amended) at the concrete value "é". -/
theorem utf16_payload_layout_witness :
    (id3v2_put_ttag [] ⟨4, 0, 0⟩ ⟨[], 0⟩ [195, 169] none 7
        .UTF16BOM).2.1.data.drop (([] : List Nat).length + 10) =
      1 :: 0xFF :: 0xFE :: (utf8_to_utf16le [195, 169] ++ [0, 0] ++ []) :=
  utf16_payload_layout ⟨4, 0, 0⟩ ⟨[], 0⟩ [195, 169] none 7 rfl (by simp)
    ⟨195, by simp, by norm_num⟩

/-- C5 counterexample: with key TALB matching the common table and allocation
oracle [false, true], the table-matched frame write fails with
AVERROR(ENOMEM), yet ff_id3v2_write_metadata does not stop with that error: it
returns 0, having fallen through and written the entry as a TXXX frame. -/
theorem metadata_error_swallowed_counterexample :
    (id3v2_put_ttag [false, true] ⟨4, 0, 0⟩ ⟨[], 0⟩ [72] none
      (AV_RB32 [84, 65, 76, 66]) .UTF8).1 = AVERROR_ENOMEM ∧
    (id3v2_check_write_tag [false, true] ⟨4, 0, 0⟩ ⟨[], 0⟩ [84, 65, 76, 66] [72]
      exTables.common .UTF8).1 = AVERROR_ENOMEM ∧
    (ff_id3v2_write_metadata exTables [([84, 65, 76, 66], [72])] [false, true]
      ⟨4, 0, 0⟩ ⟨[], 0⟩).1 = 0 := by
  refine ⟨by decide, by decide, by decide⟩

/-- C5 (amended): only a negative return from the final TXXX write aborts
ff_id3v2_write_metadata — the loop stops before the remaining entries, that
error is returned, and the stream is left exactly as the failed call left it
(already-written frames stay in place, no rollback); a negative return from a
table-matched frame write is treated as a table miss and the entry falls
through to the next resolution step instead of surfacing the error. -/
theorem txxx_error_aborts_metadata (tables : Id3Tables) (enc : ID3v2Encoding)
    (key value : List Nat) (rest : List (List Nat × List Nat)) (alloc : List Bool)
    (id3 : ID3v2EncContext) (pb : AVIOContext)
    (r1 r2 r3 : Int) (pb1 pb2 pb3 : AVIOContext) (a1 a2 a3 : List Bool)
    (henc : enc = if id3.version = 3 then ID3v2Encoding.UTF16BOM else ID3v2Encoding.UTF8)
    (e1 : id3v2_check_write_tag alloc id3 pb key value tables.common enc = (r1, pb1, a1))
    (hr1 : ¬ r1 > 0)
    (e2 : id3v2_check_write_tag a1 id3 pb1 key value
      (if id3.version = 3 then tables.v3 else tables.v4) enc = (r2, pb2, a2))
    (hr2 : ¬ r2 > 0)
    (e3 : id3v2_put_ttag a2 id3 pb2 key (some value) TXXX_tag enc = (r3, pb3, a3))
    (hr3 : r3 < 0) :
    ff_id3v2_write_metadata tables ((key, value) :: rest) alloc id3 pb =
      (r3, id3, pb3, a3) := by
  subst henc
  unfold ff_id3v2_write_metadata
  simp only [id3v2_write_metadata_loop]
  rw [e1]
  dsimp only
  rw [if_neg hr1, e2]
  dsimp only
  rw [if_neg hr2, e3]
  dsimp only
  rw [if_pos hr3]

/-- Witness for C5 (amended): a non-eligible key with a failing allocation,
so the TXXX write fails and its error is returned. -/
theorem txxx_error_aborts_metadata_witness :
    ff_id3v2_write_metadata exTables [([88], [72])] [false] ⟨4, 0, 0⟩ ⟨[], 0⟩ =
      (AVERROR_ENOMEM, ⟨4, 0, 0⟩, ⟨[], 0⟩, []) :=
  txxx_error_aborts_metadata exTables .UTF8 [88] [72] [] [false] ⟨4, 0, 0⟩ ⟨[], 0⟩
    (-1) (-1) AVERROR_ENOMEM ⟨[], 0⟩ ⟨[], 0⟩ ⟨[], 0⟩ [false] [false] []
    (by decide) (by decide) (by decide) (by decide) (by decide) (by decide) (by decide)

/-- C10: at the point ff_id3v2_write_metadata returns — whether with 0 or with
an error — the running total id3.len has grown by exactly the number of bytes
appended to the stream, i.e. by the byte counts of the successfully written
frames only (a failed frame write appends nothing and adds nothing). -/
theorem metadata_len_accounting (tables : Id3Tables)
    (entries : List (List Nat × List Nat)) (alloc : List Bool)
    (id3 : ID3v2EncContext) (pb : AVIOContext) (h : pb.pos = pb.data.length) :
    (ff_id3v2_write_metadata tables entries alloc id3 pb).2.1.len + pb.data.length =
      id3.len + (ff_id3v2_write_metadata tables entries alloc id3 pb).2.2.1.data.length ∧
    pb.data.length ≤
      (ff_id3v2_write_metadata tables entries alloc id3 pb).2.2.1.data.length := by
  obtain ⟨extra, hd, hp, hl, _, _⟩ :=
    ff_id3v2_write_metadata_spec tables entries alloc id3 pb h
  constructor
  · rw [hl, hd]
    simp [List.length_append]
    omega
  · rw [hd]
    simp

/-- Witness for C10: the failing run of the C5 witness leaves len unchanged,
satisfying the accounting equation. -/
theorem metadata_len_accounting_witness :
    (ff_id3v2_write_metadata exTables [([88], [72])] [false] ⟨4, 0, 0⟩
        ⟨[], 0⟩).2.1.len + (⟨[], 0⟩ : AVIOContext).data.length =
      (⟨4, 0, 0⟩ : ID3v2EncContext).len +
        (ff_id3v2_write_metadata exTables [([88], [72])] [false] ⟨4, 0, 0⟩
          ⟨[], 0⟩).2.2.1.data.length ∧
    (⟨[], 0⟩ : AVIOContext).data.length ≤
      (ff_id3v2_write_metadata exTables [([88], [72])] [false] ⟨4, 0, 0⟩
        ⟨[], 0⟩).2.2.1.data.length :=
  metadata_len_accounting exTables [([88], [72])] [false] ⟨4, 0, 0⟩ ⟨[], 0⟩ rfl

/-- C4: first-match-wins resolution of one metadata entry under successful
allocation: an eligible key (exactly 4 bytes, first byte is the code of T)
found in the common table yields one text frame with the key itself as tag id
and the value as sole string; otherwise an eligible key found in the
version-specific table (v3 when the version is 3, v4 otherwise) yields the
same; any other entry yields one TXXX frame with the key as first string and
the value as second — so every entry yields exactly one frame. -/
theorem resolve_entry (tables : Id3Tables) (id3 : ID3v2EncContext) (pb : AVIOContext)
    (key value : List Nat) (h : pb.pos = pb.data.length) :
    ((key.getD 0 0 = 84 ∧ key.length = 4) ∧
        table_has_tag tables.common (AV_RB32 key) = true →
      ff_id3v2_write_metadata tables [(key, value)] [] id3 pb =
        (0,
         { id3 with len := id3.len + (id3v2_put_ttag [] id3 pb value none (AV_RB32 key)
             (if id3.version = 3 then .UTF16BOM else .UTF8)).1.toNat },
         (id3v2_put_ttag [] id3 pb value none (AV_RB32 key)
             (if id3.version = 3 then .UTF16BOM else .UTF8)).2.1,
         (id3v2_put_ttag [] id3 pb value none (AV_RB32 key)
             (if id3.version = 3 then .UTF16BOM else .UTF8)).2.2)) ∧
    ((key.getD 0 0 = 84 ∧ key.length = 4) ∧
        ¬ table_has_tag tables.common (AV_RB32 key) = true ∧
        table_has_tag (if id3.version = 3 then tables.v3 else tables.v4)
          (AV_RB32 key) = true →
      ff_id3v2_write_metadata tables [(key, value)] [] id3 pb =
        (0,
         { id3 with len := id3.len + (id3v2_put_ttag [] id3 pb value none (AV_RB32 key)
             (if id3.version = 3 then .UTF16BOM else .UTF8)).1.toNat },
         (id3v2_put_ttag [] id3 pb value none (AV_RB32 key)
             (if id3.version = 3 then .UTF16BOM else .UTF8)).2.1,
         (id3v2_put_ttag [] id3 pb value none (AV_RB32 key)
             (if id3.version = 3 then .UTF16BOM else .UTF8)).2.2)) ∧
    (¬ ((key.getD 0 0 = 84 ∧ key.length = 4) ∧
        (table_has_tag tables.common (AV_RB32 key) = true ∨
         table_has_tag (if id3.version = 3 then tables.v3 else tables.v4)
           (AV_RB32 key) = true)) →
      ff_id3v2_write_metadata tables [(key, value)] [] id3 pb =
        (0,
         { id3 with len := id3.len + (id3v2_put_ttag [] id3 pb key (some value) TXXX_tag
             (if id3.version = 3 then .UTF16BOM else .UTF8)).1.toNat },
         (id3v2_put_ttag [] id3 pb key (some value) TXXX_tag
             (if id3.version = 3 then .UTF16BOM else .UTF8)).2.1,
         (id3v2_put_ttag [] id3 pb key (some value) TXXX_tag
             (if id3.version = 3 then .UTF16BOM else .UTF8)).2.2)) := by
  refine ⟨?_, ?_, ?_⟩
  · intro hp
    obtain ⟨⟨hk0, hk4⟩, ht⟩ := hp
    unfold ff_id3v2_write_metadata
    simp only [id3v2_write_metadata_loop]
    have hc1 : id3v2_check_write_tag [] id3 pb key value tables.common
        (if id3.version = 3 then .UTF16BOM else .UTF8) =
        id3v2_put_ttag [] id3 pb value none (AV_RB32 key)
          (if id3.version = 3 then .UTF16BOM else .UTF8) := by
      unfold id3v2_check_write_tag
      rw [if_neg (by push_neg; exact ⟨hk0, hk4⟩), if_pos ht]
    rw [hc1, if_pos (id3v2_put_ttag_ret_pos [] id3 pb value none (AV_RB32 key) _ rfl h)]
  · intro hp
    obtain ⟨⟨hk0, hk4⟩, htn, ht⟩ := hp
    unfold ff_id3v2_write_metadata
    simp only [id3v2_write_metadata_loop]
    have hc1 : id3v2_check_write_tag [] id3 pb key value tables.common
        (if id3.version = 3 then .UTF16BOM else .UTF8) = (-1, pb, []) := by
      unfold id3v2_check_write_tag
      rw [if_neg (by push_neg; exact ⟨hk0, hk4⟩), if_neg htn]
    rw [hc1]
    dsimp only
    rw [if_neg (by norm_num)]
    have hc2 : id3v2_check_write_tag [] id3 pb key value
        (if id3.version = 3 then tables.v3 else tables.v4)
        (if id3.version = 3 then .UTF16BOM else .UTF8) =
        id3v2_put_ttag [] id3 pb value none (AV_RB32 key)
          (if id3.version = 3 then .UTF16BOM else .UTF8) := by
      unfold id3v2_check_write_tag
      rw [if_neg (by push_neg; exact ⟨hk0, hk4⟩), if_pos ht]
    rw [hc2, if_pos (id3v2_put_ttag_ret_pos [] id3 pb value none (AV_RB32 key) _ rfl h)]
  · intro hp
    unfold ff_id3v2_write_metadata
    simp only [id3v2_write_metadata_loop]
    by_cases helig : key.getD 0 0 = 84 ∧ key.length = 4
    · have hcom : ¬ table_has_tag tables.common (AV_RB32 key) = true :=
        fun hc => hp ⟨helig, Or.inl hc⟩
      have hver : ¬ table_has_tag (if id3.version = 3 then tables.v3 else tables.v4)
          (AV_RB32 key) = true := fun hc => hp ⟨helig, Or.inr hc⟩
      have hc1 : id3v2_check_write_tag [] id3 pb key value tables.common
          (if id3.version = 3 then .UTF16BOM else .UTF8) = (-1, pb, []) := by
        unfold id3v2_check_write_tag
        rw [if_neg (by push_neg; exact ⟨helig.1, helig.2⟩), if_neg hcom]
      have hc2 : id3v2_check_write_tag [] id3 pb key value
          (if id3.version = 3 then tables.v3 else tables.v4)
          (if id3.version = 3 then .UTF16BOM else .UTF8) = (-1, pb, []) := by
        unfold id3v2_check_write_tag
        rw [if_neg (by push_neg; exact ⟨helig.1, helig.2⟩), if_neg hver]
      rw [hc1]
      dsimp only
      rw [if_neg (by norm_num), hc2]
      dsimp only
      rw [if_neg (by norm_num),
        if_neg (by
          have := id3v2_put_ttag_ret_pos [] id3 pb key (some value) TXXX_tag
            (if id3.version = 3 then .UTF16BOM else .UTF8) rfl h
          omega)]
    · have hc1 : id3v2_check_write_tag [] id3 pb key value tables.common
          (if id3.version = 3 then .UTF16BOM else .UTF8) = (-1, pb, []) := by
        unfold id3v2_check_write_tag
        rw [if_pos (by rw [not_and_or] at helig; exact helig)]
      have hc2 : id3v2_check_write_tag [] id3 pb key value
          (if id3.version = 3 then tables.v3 else tables.v4)
          (if id3.version = 3 then .UTF16BOM else .UTF8) = (-1, pb, []) := by
        unfold id3v2_check_write_tag
        rw [if_pos (by rw [not_and_or] at helig; exact helig)]
      rw [hc1]
      dsimp only
      rw [if_neg (by norm_num), hc2]
      dsimp only
      rw [if_neg (by norm_num),
        if_neg (by
          have := id3v2_put_ttag_ret_pos [] id3 pb key (some value) TXXX_tag
            (if id3.version = 3 then .UTF16BOM else .UTF8) rfl h
          omega)]

/-- Witness for C4: the non-eligible key "X" goes to the TXXX fallback. -/
theorem resolve_entry_witness :
    ff_id3v2_write_metadata exTables [([88], [72])] [] ⟨4, 0, 0⟩ ⟨[], 0⟩ =
      (0,
       { version := 4, size_pos := 0, len :=
          (0 : Nat) + (id3v2_put_ttag [] ⟨4, 0, 0⟩ ⟨[], 0⟩ [88] (some [72]) TXXX_tag
            (if (4 : Nat) = 3 then .UTF16BOM else .UTF8)).1.toNat },
       (id3v2_put_ttag [] ⟨4, 0, 0⟩ ⟨[], 0⟩ [88] (some [72]) TXXX_tag
          (if (4 : Nat) = 3 then .UTF16BOM else .UTF8)).2.1,
       (id3v2_put_ttag [] ⟨4, 0, 0⟩ ⟨[], 0⟩ [88] (some [72]) TXXX_tag
          (if (4 : Nat) = 3 then .UTF16BOM else .UTF8)).2.2) :=
  (resolve_entry exTables ⟨4, 0, 0⟩ ⟨[], 0⟩ [88] [72] rfl).2.2 (by decide)

/-- C1: after start, a successful ff_id3v2_write_metadata and finish, the
accumulated id3.len equals exactly the bytes between the end of the 10-byte
tag header and the end of the last frame; the 4 bytes backpatched at size_pos
are the synchsafe encoding of that value; and the stream position after
finish equals its position immediately before finish. -/
theorem tag_finish_invariant (tables : Id3Tables)
    (entries : List (List Nat × List Nat)) (alloc : List Bool) (pb0 : AVIOContext)
    (version : Nat) (magic : List Nat) (h0 : pb0.pos = pb0.data.length)
    (_hok : (runTag tables entries alloc pb0 version magic).1 = 0) :
    (runTag tables entries alloc pb0 version magic).2.1.len + (pb0.data.length + 10) =
      (runTag tables entries alloc pb0 version magic).2.2.1.data.length ∧
    ((runTag tables entries alloc pb0 version magic).2.2.2.data.drop
        (runTag tables entries alloc pb0 version magic).2.1.size_pos).take 4 =
      synchsafe_bytes (runTag tables entries alloc pb0 version magic).2.1.len ∧
    (runTag tables entries alloc pb0 version magic).2.2.2.pos =
      (runTag tables entries alloc pb0 version magic).2.2.1.pos := by
  clear _hok
  simp only [runTag]
  obtain ⟨hdr6, hl6, hdata1, hpos1, hsz1, hver1, hlen1⟩ :=
    ff_id3v2_start_spec ⟨0, 0, 0⟩ pb0 version magic h0
  generalize hg1 : ff_id3v2_start ⟨0, 0, 0⟩ pb0 version magic = st
    at hdata1 hpos1 hsz1 hver1 hlen1 ⊢
  obtain ⟨id3a, pb1⟩ := st
  dsimp only at hdata1 hpos1 hsz1 hver1 hlen1 ⊢
  have hp1 : pb1.pos = pb1.data.length := by
    rw [hpos1, hdata1]
    simp [hl6]
  obtain ⟨extra, hd2, hp2, hl2, hv2, hz2⟩ :=
    ff_id3v2_write_metadata_spec tables entries alloc id3a pb1 hp1
  generalize hg2 : ff_id3v2_write_metadata tables entries alloc id3a pb1 = m
    at hd2 hp2 hl2 hv2 hz2 ⊢
  obtain ⟨ret, id3b, pb2, a⟩ := m
  dsimp only at hd2 hp2 hl2 hv2 hz2 ⊢
  have hdata2 : pb2.data = (pb0.data ++ hdr6) ++ 0 :: 0 :: 0 :: 0 :: extra := by
    rw [hd2, hdata1]
    simp
  have hszb : id3b.size_pos = (pb0.data ++ hdr6).length := by
    rw [hz2, hsz1]
    simp [hl6]
  have hpb2 : pb2 = ⟨(pb0.data ++ hdr6) ++ 0 :: 0 :: 0 :: 0 :: extra, pb2.pos⟩ := by
    cases pb2
    dsimp only at hdata2 ⊢
    rw [hdata2]
  have hfin := ff_id3v2_finish_overwrite id3b (pb0.data ++ hdr6) extra 0 0 0 0 pb2.pos hszb
  refine ⟨?_, ?_, ?_⟩
  · rw [hl2, hlen1, hdata2]
    simp [hl6]
    omega
  · rw [hpb2, hfin]
    dsimp only
    rw [hszb, List.append_assoc, List.drop_left,
      List.take_left' (synchsafe_bytes_length id3b.len)]
  · rw [hpb2, hfin]

/-- Witness for C1: one TXXX frame for the entry ("X", "H") under version 4. -/
theorem tag_finish_invariant_witness :
    (runTag exTables [([88], [72])] [] ⟨[], 0⟩ 4 [73, 68, 51]).2.1.len +
        ((⟨[], 0⟩ : AVIOContext).data.length + 10) =
      (runTag exTables [([88], [72])] [] ⟨[], 0⟩ 4 [73, 68, 51]).2.2.1.data.length ∧
    ((runTag exTables [([88], [72])] [] ⟨[], 0⟩ 4 [73, 68, 51]).2.2.2.data.drop
        (runTag exTables [([88], [72])] [] ⟨[], 0⟩ 4 [73, 68, 51]).2.1.size_pos).take 4 =
      synchsafe_bytes (runTag exTables [([88], [72])] [] ⟨[], 0⟩ 4 [73, 68, 51]).2.1.len ∧
    (runTag exTables [([88], [72])] [] ⟨[], 0⟩ 4 [73, 68, 51]).2.2.2.pos =
      (runTag exTables [([88], [72])] [] ⟨[], 0⟩ 4 [73, 68, 51]).2.2.1.pos :=
  tag_finish_invariant exTables [([88], [72])] [] ⟨[], 0⟩ 4 [73, 68, 51] rfl (by decide)

/-- C9: when ff_id3v2_write_metadata fails inside ff_id3v2_write_simple, the
error is returned, the stream is exactly what writeMetadata left (finish is
never called), and the 4 bytes at the reserved size offset still hold the
zero placeholder written by start. -/
theorem write_simple_error_keeps_placeholder (tables : Id3Tables)
    (entries : List (List Nat × List Nat)) (alloc : List Bool) (pb0 : AVIOContext)
    (version : Nat) (magic : List Nat) (h0 : pb0.pos = pb0.data.length)
    (herr : (ff_id3v2_write_metadata tables entries alloc
        (ff_id3v2_start ⟨0, 0, 0⟩ pb0 version magic).1
        (ff_id3v2_start ⟨0, 0, 0⟩ pb0 version magic).2).1 < 0) :
    ff_id3v2_write_simple tables entries alloc pb0 version magic =
      ((ff_id3v2_write_metadata tables entries alloc
          (ff_id3v2_start ⟨0, 0, 0⟩ pb0 version magic).1
          (ff_id3v2_start ⟨0, 0, 0⟩ pb0 version magic).2).1,
       (ff_id3v2_write_metadata tables entries alloc
          (ff_id3v2_start ⟨0, 0, 0⟩ pb0 version magic).1
          (ff_id3v2_start ⟨0, 0, 0⟩ pb0 version magic).2).2.2.1,
       (ff_id3v2_write_metadata tables entries alloc
          (ff_id3v2_start ⟨0, 0, 0⟩ pb0 version magic).1
          (ff_id3v2_start ⟨0, 0, 0⟩ pb0 version magic).2).2.2.2) ∧
    ((ff_id3v2_write_simple tables entries alloc pb0 version magic).2.1.data.drop
        (pb0.data.length + 6)).take 4 = [0, 0, 0, 0] := by
  have hmain : ff_id3v2_write_simple tables entries alloc pb0 version magic =
      ((ff_id3v2_write_metadata tables entries alloc
          (ff_id3v2_start ⟨0, 0, 0⟩ pb0 version magic).1
          (ff_id3v2_start ⟨0, 0, 0⟩ pb0 version magic).2).1,
       (ff_id3v2_write_metadata tables entries alloc
          (ff_id3v2_start ⟨0, 0, 0⟩ pb0 version magic).1
          (ff_id3v2_start ⟨0, 0, 0⟩ pb0 version magic).2).2.2.1,
       (ff_id3v2_write_metadata tables entries alloc
          (ff_id3v2_start ⟨0, 0, 0⟩ pb0 version magic).1
          (ff_id3v2_start ⟨0, 0, 0⟩ pb0 version magic).2).2.2.2) := by
    simp only [ff_id3v2_write_simple]
    rw [if_pos herr]
  refine ⟨hmain, ?_⟩
  rw [hmain]
  dsimp only
  obtain ⟨hdr6, hl6, hdata1, hpos1, hsz1, hver1, hlen1⟩ :=
    ff_id3v2_start_spec ⟨0, 0, 0⟩ pb0 version magic h0
  have hp1 : (ff_id3v2_start ⟨0, 0, 0⟩ pb0 version magic).2.pos =
      (ff_id3v2_start ⟨0, 0, 0⟩ pb0 version magic).2.data.length := by
    rw [hpos1, hdata1]
    simp [hl6]
  obtain ⟨extra, hd2, hp2, hl2, hv2, hz2⟩ :=
    ff_id3v2_write_metadata_spec tables entries alloc
      (ff_id3v2_start ⟨0, 0, 0⟩ pb0 version magic).1
      (ff_id3v2_start ⟨0, 0, 0⟩ pb0 version magic).2 hp1
  rw [hd2, hdata1]
  rw [show pb0.data ++ hdr6 ++ [0, 0, 0, 0] ++ extra =
      (pb0.data ++ hdr6) ++ ([0, 0, 0, 0] ++ extra) by simp]
  rw [List.drop_left' (by simp [hl6]),
    List.take_left' (show ([0, 0, 0, 0] : List Nat).length = 4 from rfl)]

/-- Witness for C9: a failing allocation on the single entry leaves the zero
placeholder in place and surfaces the error. -/
theorem write_simple_error_keeps_placeholder_witness :
    ff_id3v2_write_simple exTables [([88], [72])] [false] ⟨[], 0⟩ 4 [73, 68, 51] =
      ((ff_id3v2_write_metadata exTables [([88], [72])] [false]
          (ff_id3v2_start ⟨0, 0, 0⟩ ⟨[], 0⟩ 4 [73, 68, 51]).1
          (ff_id3v2_start ⟨0, 0, 0⟩ ⟨[], 0⟩ 4 [73, 68, 51]).2).1,
       (ff_id3v2_write_metadata exTables [([88], [72])] [false]
          (ff_id3v2_start ⟨0, 0, 0⟩ ⟨[], 0⟩ 4 [73, 68, 51]).1
          (ff_id3v2_start ⟨0, 0, 0⟩ ⟨[], 0⟩ 4 [73, 68, 51]).2).2.2.1,
       (ff_id3v2_write_metadata exTables [([88], [72])] [false]
          (ff_id3v2_start ⟨0, 0, 0⟩ ⟨[], 0⟩ 4 [73, 68, 51]).1
          (ff_id3v2_start ⟨0, 0, 0⟩ ⟨[], 0⟩ 4 [73, 68, 51]).2).2.2.2) ∧
    ((ff_id3v2_write_simple exTables [([88], [72])] [false] ⟨[], 0⟩ 4
        [73, 68, 51]).2.1.data.drop ((⟨[], 0⟩ : AVIOContext).data.length + 6)).take 4 =
      [0, 0, 0, 0] :=
  write_simple_error_keeps_placeholder exTables [([88], [72])] [false] ⟨[], 0⟩ 4
    [73, 68, 51] rfl (by decide)

end ID3v2
